import Mathlib

set_option linter.unusedVariables false

/-
Verification development for the medium-scraper repository.

Shallow embedding of the core components described in spec.md:
the transport cache (request_sender/cached_sender.py, cache_backend.py),
the URL safety gate (request_sender/base.py), the pagination client
(explorer/medium_explorer.py), the Markdown converter's post-processing
passes (parser/medium_parser.py) and the concurrent orchestrator's
accounting (concurrent.py).

Machine integers are modelled as Int/Nat; wall-clock times and TTLs
(Python floats in the source) are modelled as exact rationals, which is
faithful for every comparison the code performs.  External libraries
(hashlib, urllib.parse, BeautifulSoup, markdownify, asyncio, datetime)
are modelled at their interface: each such boundary is noted in the
doc comment of the definition that crosses it.
-/

/-- Check that `pre` is an initial segment of `l` (structurally, so that
proofs can evaluate it). -/
def listStartsWith : List Char → List Char → Bool
  | _, [] => true
  | [], _ :: _ => false
  | c :: cs, p :: ps => (c = p) && listStartsWith cs ps

/-- Python str.endswith: the second string is a suffix of the first. -/
def strEndsWith (s suffix : String) : Bool :=
  listStartsWith s.toList.reverse suffix.toList.reverse

/-- models.py: HttpResponse dataclass {url, status_code, headers, text}. -/
structure HttpResponse where
  url : String
  status_code : Int
  headers : List (String × String)
  text : String
deriving Repr, DecidableEq

/-- cache_backend.py: one row of the http_cache SQLite table
(cache_key is the association key of the store; headers are kept as the
mapping itself, modelling the json.dumps/json.loads round trip performed
by set/get). -/
structure StoredRow where
  url : String
  status_code : Int
  headers : List (String × String)
  body : String
  created_at : ℚ
  ttl_seconds : Option ℚ
deriving Repr, DecidableEq

/-- The persistent store: a finite map cache_key -> row, as an
association list with unique keys maintained by replace-insert
(SQLite PRIMARY KEY + REPLACE semantics). -/
abbrev Store : Type := List (String × StoredRow)

/-- SELECT ... WHERE cache_key = ? : the row with the given key. -/
def lookupStore : Store → String → Option StoredRow
  | [], _ => none
  | p :: rest, k => if p.1 = k then some p.2 else lookupStore rest k

/-- cache_backend.py SQLiteCacheBackend.delete: DELETE ... WHERE cache_key = ?. -/
def cacheDelete : Store → String → Store
  | [], _ => []
  | p :: rest, k => if p.1 = k then cacheDelete rest k else p :: cacheDelete rest k

/-- REPLACE INTO http_cache: remove any row with the key, insert the new one. -/
def insertStore (k : String) (r : StoredRow) (st : Store) : Store :=
  (k, r) :: cacheDelete st k

/-- The HttpResponse that SQLiteCacheBackend.get rebuilds from a row. -/
def rowToResponse (r : StoredRow) : HttpResponse :=
  { url := r.url, status_code := r.status_code, headers := r.headers, text := r.body }

/-- cache_backend.py SQLiteCacheBackend.get, with the wall clock `now`
passed explicitly (the source reads time.time()).  Returns the response
(or None) together with the store after the lazy purge of an expired row. -/
def cacheGet (st : Store) (k : String) (now : ℚ) : Option HttpResponse × Store :=
  match lookupStore st k with
  | none => (none, st)
  | some row =>
    match row.ttl_seconds with
    | some t =>
      if now - row.created_at > t then
        (none, cacheDelete st k)
      else
        (some (rowToResponse row), st)
    | none => (some (rowToResponse row), st)

/-- cache_backend.py SQLiteCacheBackend.set, with `now` explicit:
a response whose status code is not 200 is not written at all. -/
def cacheSet (st : Store) (k : String) (resp : HttpResponse)
    (ttl_seconds : Option ℚ) (now : ℚ) : Store :=
  if resp.status_code ≠ 200 then st
  else
    insertStore k
      { url := resp.url, status_code := resp.status_code,
        headers := resp.headers, body := resp.text,
        created_at := now, ttl_seconds := ttl_seconds } st

/-- JSON values as produced by Python json for the payloads the code
serializes (the `json` and `data` request bodies). -/
inductive PyJson where
  | null : PyJson
  | bool : Bool → PyJson
  | num : Int → PyJson
  | str : String → PyJson
  | arr : List PyJson → PyJson
  | obj : List (String × PyJson) → PyJson

/-- Escape one character the way json.dumps (ensure_ascii=False) does:
backslash, double quote and control characters are escaped, everything
else passes through. -/
def jsonEscapeChar (c : Char) : String :=
  if c = '\\' then "\\\\"
  else if c = '"' then "\\\""
  else if c = '\n' then "\\n"
  else if c = '\t' then "\\t"
  else if c = '\r' then "\\r"
  else if c = '\x08' then "\\b"
  else if c = '\x0c' then "\\f"
  else if c.toNat < 32 then
    "\\u00" ++ String.mk [Nat.digitChar (c.toNat / 16), Nat.digitChar (c.toNat % 16)]
  else String.singleton c

/-- json.dumps of a string literal. -/
def jsonDumpsStr (s : String) : String :=
  "\"" ++ String.join (s.toList.map jsonEscapeChar) ++ "\""

/-- Code-point lexicographic strict order on character lists (Python's
string ordering). -/
def charListLt : List Char → List Char → Bool
  | [], [] => false
  | [], _ :: _ => true
  | _ :: _, [] => false
  | a :: as, b :: bs =>
    if a.toNat < b.toNat then true
    else if b.toNat < a.toNat then false
    else charListLt as bs

/-- Python string comparison a <= b. -/
def strLe (a b : String) : Bool :=
  !(charListLt b.toList a.toList)

/-- Insert a serialized object entry into a key-ordered list. -/
def insertByKey (x : String × String) : List (String × String) → List (String × String)
  | [] => [x]
  | y :: rest => if strLe x.1 y.1 then x :: y :: rest else y :: insertByKey x rest

/-- Sort serialized object entries by key (insertion sort, structural so
that proofs can evaluate it). -/
def sortByKey : List (String × String) → List (String × String)
  | [] => []
  | x :: rest => insertByKey x (sortByKey rest)

mutual

/-- json.dumps with sort_keys=True and default separators, modelling the
Python stdlib call in cached_sender._stable_key (external library).
Object entries are serialized and then ordered by key, which yields the
same text as serializing in key order. -/
def jsonDumps : PyJson → String
  | PyJson.null => "null"
  | PyJson.bool b => if b then "true" else "false"
  | PyJson.num n => toString n
  | PyJson.str s => jsonDumpsStr s
  | PyJson.arr l => "[" ++ String.intercalate ", " (jsonDumpsList l) ++ "]"
  | PyJson.obj l =>
    let entries := sortByKey (jsonDumpsEntries l)
    "\x7b" ++
      String.intercalate ", " (entries.map (fun p => jsonDumpsStr p.1 ++ ": " ++ p.2)) ++
      "\x7d"

def jsonDumpsList : List PyJson → List String
  | [] => []
  | x :: rest => jsonDumps x :: jsonDumpsList rest

def jsonDumpsEntries : List (String × PyJson) → List (String × String)
  | [] => []
  | (k, v) :: rest => (k, jsonDumps v) :: jsonDumpsEntries rest

end

/-- Python str.upper for ASCII strings (method.upper() in _stable_key). -/
def pyUpper (s : String) : String :=
  String.mk (s.toList.map Char.toUpper)

/-- Lift an optional request body to the JSON value json.dumps receives:
None becomes null.  The `data` body is modelled after the bytes-decoding
step of the source (a decoded string or None). -/
def optStrJson : Option String → PyJson
  | none => PyJson.null
  | some s => PyJson.str s

def optJson : Option PyJson → PyJson
  | none => PyJson.null
  | some j => j

/-- cached_sender.py _stable_key: the cache fingerprint.  sha256hex models
hashlib.sha256(...).hexdigest() (external library) and is quantified over,
since every property proved here holds for any digest function.  The
headers argument is accepted exactly as in the source. -/
def stable_key (sha256hex : String → String) (method : String) (url : String)
    (headers : Option (List (String × String))) (json_body : Option PyJson)
    (data_body : Option String) : String :=
  let base := PyJson.obj
    [("method", PyJson.str (pyUpper method)),
     ("url", PyJson.str url),
     ("json", optJson json_body),
     ("data", optStrJson data_body)]
  sha256hex (jsonDumps base)

/-- The ttl the source passes to cache.set:
ttl_seconds if ttl_seconds is not None else self.default_ttl_seconds. -/
def effectiveTtl (ttl_seconds default_ttl_seconds : Option ℚ) : Option ℚ :=
  match ttl_seconds with
  | some t => some t
  | none => default_ttl_seconds

/-- cached_sender.py CachedRequestSender.request.  `inner` is the response
the wrapped sender returns for this call (the await of inner.request);
`now` is the wall clock at the cache operations.  Returns the response
handed to the caller and the store after the call. -/
def cachedRequest (sha256hex : String → String) (inner : HttpResponse)
    (st : Store) (method : String) (url : String)
    (headers : Option (List (String × String))) (json_body : Option PyJson)
    (data_body : Option String) (ttl_seconds : Option ℚ)
    (default_ttl_seconds : Option ℚ) (bypass_cache : Bool) (now : ℚ) :
    HttpResponse × Store :=
  match (if bypass_cache then (none, st)
         else cacheGet st (stable_key sha256hex method url headers json_body data_body) now) with
  | (some cached, st') => (cached, st')
  | (none, st') =>
    (inner, cacheSet st' (stable_key sha256hex method url headers json_body data_body)
      inner (effectiveTtl ttl_seconds default_ttl_seconds) now)

/-- Characters urllib.parse allows inside a URL scheme. -/
def isSchemeChar (c : Char) : Bool :=
  c.isAlphanum || c = '+' || c = '-' || c = '.'

/-- The (scheme, netloc) pair of urllib.parse.urlparse (external stdlib),
restricted to the two components base.is_safe_url reads: the scheme is the
lowercased text before the first colon when that text is a wellformed
scheme, and the netloc is the text after a leading "//" up to the first
slash, question mark or hash. -/
def pyUrlparseSchemeNetloc (url : String) : String × String :=
  let cs := url.toList
  let pre := cs.takeWhile (fun c => c ≠ ':')
  let (scheme, rest) :=
    if pre.length < cs.length ∧ pre ≠ [] ∧
        (pre.headD '0').isAlpha ∧ pre.all isSchemeChar then
      (String.mk (pre.map Char.toLower), cs.drop (pre.length + 1))
    else
      ("", cs)
  let netloc :=
    match rest with
    | '/' :: '/' :: after =>
      String.mk (after.takeWhile (fun c => c ≠ '/' ∧ c ≠ '?' ∧ c ≠ '#'))
    | _ => ""
  (scheme, netloc)

/-- request_sender/base.py RequestSender.is_safe_url:
scheme must be "https" and the netloc must end with "medium.com". -/
def is_safe_url (url : String) : Bool :=
  let p := pyUrlparseSchemeNetloc url
  p.1 = "https" && strEndsWith p.2 "medium.com"

instance : DecidableEq (Except String HttpResponse) := fun a b =>
  match a, b with
  | Except.ok x, Except.ok y =>
    if h : x = y then Decidable.isTrue (by rw [h])
    else Decidable.isFalse (by intro hc; cases hc; exact h rfl)
  | Except.ok _, Except.error _ => Decidable.isFalse (by intro hc; cases hc)
  | Except.error _, Except.ok _ => Decidable.isFalse (by intro hc; cases hc)
  | Except.error e, Except.error f =>
    if h : e = f then Decidable.isTrue (by rw [h])
    else Decidable.isFalse (by intro hc; cases hc; exact h rfl)

/-- Outcome of one call to RequestSender.fetch: the value returned or the
error raised, together with the requests issued through the underlying
transport during the call. -/
structure FetchOutcome where
  result : Except String HttpResponse
  issued : List (String × String)
deriving Repr, DecidableEq

/-- request_sender/base.py RequestSender.fetch: the safety gate runs
first; only a safe URL reaches self.request ("GET", url), an unsafe one
raises ValueError("Unsafe URL") with no transport request issued.
`request` gives the wrapped transport's response for a (method, url). -/
def fetch (request : String → String → HttpResponse) (url : String) : FetchOutcome :=
  if is_safe_url url then
    { result := Except.ok (request "GET" url), issued := [("GET", url)] }
  else
    { result := Except.error "Unsafe URL", issued := [] }

/-- The host of a URL: the netloc with userinfo (before the last "@") and
port (after the first ":") removed, lowercased, as urllib's hostname
accessor computes it. -/
def urlHost (url : String) : String :=
  let nl := (pyUrlparseSchemeNetloc url).2.toList
  let afterAt := (nl.reverse.takeWhile (fun c => c ≠ '@')).reverse
  String.mk ((afterAt.takeWhile (fun c => c ≠ ':')).map Char.toLower)

/-- Modelled from the spec: "its host belongs to the target platform's
domain (medium.com)" — the URL's host is medium.com itself or a proper
subdomain of medium.com.  This is the spec-side predicate of the safety
gate, to be compared with the code's is_safe_url. -/
def urlHostInMediumDomain (url : String) : Bool :=
  let h := urlHost url
  h = "medium.com" || strEndsWith h ".medium.com"

def respNot : HttpResponse :=
  { url := "https://notmedium.com/a", status_code := 200, headers := [], text := "body" }

def constRequest : String → String → HttpResponse :=
  fun _ _ => respNot

def idDigest : String → String := fun s => s

def resp404 : HttpResponse :=
  { url := "https://medium.com/missing", status_code := 404, headers := [], text := "not found" }

def row200 : StoredRow :=
  { url := "https://medium.com/a", status_code := 200, headers := [],
    body := "ok", created_at := 0, ttl_seconds := none }

def st200 : Store := [("k0", row200)]

def rowTtl : StoredRow :=
  { url := "https://medium.com/a", status_code := 200, headers := [],
    body := "cached body", created_at := 0, ttl_seconds := some 1 }

def stTtl : Store := [("kt", rowTtl), ("kn", row200)]

/-- The "cursor" entry of a feed edge as the JSON gives it: the key can be
absent (edges[-1]["cursor"] raises KeyError), null, or a string. -/
inductive CursorField where
  | missing : CursorField
  | nullVal : CursorField
  | val : String → CursorField
deriving Repr, DecidableEq

/-- The node dict of one feed edge.  Fields read with .get never raise;
id is read with ["id"] and raises when absent, which is why it is the
only Option consulted for failure besides the node itself. -/
structure FeedNode where
  id : Option String
  title : Option String
  creatorName : Option String
  firstPublishedAt : Option Int
  mediumUrl : Option String
deriving Repr, DecidableEq

/-- One edge of the sortedFeed: item["node"] raises when the node key is
absent. -/
structure FeedEdge where
  cursor : CursorField
  node : Option FeedNode
deriving Repr, DecidableEq

/-- One decoded GraphQL response as get_articles_by_category consumes it:
either the access data[0]["data"]["tagFromSlug"]["sortedFeed"]["edges"]
fails (malformed) or it yields a list of edges. -/
inductive FeedResp where
  | malformed : FeedResp
  | page : List FeedEdge → FeedResp
deriving Repr, DecidableEq

/-- explorer/medium_explorer.py Article dataclass. -/
structure Article where
  post_id : String
  title : String
  author : String
  date : String
  category : String
  url : String
  content : String := ""
deriving Repr, DecidableEq

/-- explorer/medium_explorer.py timestamp_to_date, with the
datetime.fromtimestamp(...).strftime("%Y-%m-%d") rendering (external
stdlib, local-timezone dependent) abstracted as fmt. -/
def timestamp_to_date (fmt : Int → String) (timestamp : Int) : String :=
  if timestamp = 0 then "" else fmt timestamp

/-- The timestamp expression of the loop body:
int(node.get("firstPublishedAt", 0)) // 1000 if node.get("firstPublishedAt") else 0
(// is Python floor division). -/
def nodeTimestamp (n : FeedNode) : Int :=
  match n.firstPublishedAt with
  | some t => if t = 0 then 0 else Int.fdiv t 1000
  | none => 0

/-- Conversion of one edge to an Article, as the body of the inner for
loop performs it; none marks the item raising (missing "node" or missing
"id"), which aborts the rest of the page's loop. -/
def convertEdge (fmt : Int → String) (category : String) (e : FeedEdge) : Option Article :=
  match e.node with
  | none => none
  | some n =>
    match n.id with
    | none => none
    | some pid =>
      some { post_id := pid,
             title := n.title.getD "",
             author := n.creatorName.getD "",
             date := timestamp_to_date fmt (nodeTimestamp n),
             category := category,
             url := n.mediumUrl.getD "",
             content := "" }

/-- The articles one page contributes: the for loop appends per item and
the surrounding try/except drops the rest of the page at the first item
whose conversion raises. -/
def collectUntilFailure (fmt : Int → String) (category : String) :
    List FeedEdge → List Article
  | [] => []
  | e :: rest =>
    match convertEdge fmt category e with
    | none => []
    | some a => a :: collectUntilFailure fmt category rest

/-- The cursor of the last edge (edges[-1]["cursor"]); only called on a
non-empty list. -/
def lastCursorOf (edges : List FeedEdge) : CursorField :=
  match edges.getLast? with
  | none => CursorField.missing
  | some e => e.cursor

/-- explorer/medium_explorer.py get_articles_by_category's while loop.
The successive transport responses are supplied as a list (the loop
performs exactly one request per iteration).  Returns the accumulated
articles and whether the loop ended through one of its break statements
(true) or the supplied responses ran out first (false).  A malformed
response, an empty edge list, and a KeyError on the last edge's cursor
all break out of the loop via the first try/except; otherwise the page's
items are collected and iteration continues. -/
def getArticlesLoop (fmt : Int → String) (category : String) :
    List FeedResp → List Article → List Article × Bool
  | [], acc => (acc, false)
  | r :: rest, acc =>
    match r with
    | FeedResp.malformed => (acc, true)
    | FeedResp.page edges =>
      if edges.isEmpty then (acc, true)
      else
        match lastCursorOf edges with
        | CursorField.missing => (acc, true)
        | _ => getArticlesLoop fmt category rest (acc ++ collectUntilFailure fmt category edges)

/-- get_articles_by_category for one (tag, year, month) window, over the
modelled sequence of responses. -/
def get_articles_by_category (fmt : Int → String) (category : String)
    (responses : List FeedResp) : List Article × Bool :=
  getArticlesLoop fmt category responses []

def fmt0 : Int → String := fun _ => "2023-11-14"

def nodeW (i : String) : FeedNode :=
  { id := some i, title := some ("T" ++ i), creatorName := some "Author",
    firstPublishedAt := some 1700000000000, mediumUrl := some ("https://medium.com/p/" ++ i) }

def edgeW (i : String) : FeedEdge :=
  { cursor := CursorField.val ("c" ++ i), node := some (nodeW i) }

def pagesW : List (List FeedEdge) := [[edgeW "1", edgeW "2"], [edgeW "3"], [edgeW "4"]]

def badEdge : FeedEdge := { cursor := CursorField.val "cb", node := none }

def goodNode : FeedNode :=
  { id := some "g1", title := some "Good", creatorName := some "Author",
    firstPublishedAt := none, mediumUrl := some "https://medium.com/p/g1" }

def goodEdge : FeedEdge := { cursor := CursorField.val "cg", node := some goodNode }

/-- The backtick character (code point 96). -/
def tickChar : Char := Char.ofNat 96

/-- Python str whitespace / regex \s, ASCII range (the inputs the parser
normalizes are ASCII-newline separated; the unicode extension of \s is
not needed for any comparison made here). -/
def pyIsSpace (c : Char) : Bool :=
  c = ' ' || c = '\t' || c = '\n' || c = '\r' || c = '\x0b' || c = '\x0c'

/-- Python str.strip() on a character list. -/
def pyStripList (cs : List Char) : List Char :=
  ((cs.dropWhile pyIsSpace).reverse.dropWhile pyIsSpace).reverse

/-- Python str.strip(). -/
def pyStrip (s : String) : String :=
  String.mk (pyStripList s.toList)

/-- line.strip() == "": the line holds only whitespace. -/
def isBlankLine (s : String) : Bool :=
  s.toList.all pyIsSpace

/-- re.sub(r"\\([^a-zA-Z0-9\s])", r"\1", .): drop a backslash escaping a
punctuation character, scanning left to right without overlap. -/
def unescapeAux : List Char → List Char
  | [] => []
  | '\\' :: c :: rest =>
    if !(c.isAlphanum) && !(pyIsSpace c) then c :: unescapeAux rest
    else '\\' :: unescapeAux (c :: rest)
  | c :: rest => c :: unescapeAux rest

/-- re.sub(r"\[\n+", "[", .) as a one-pass scan: the Bool records that
the last emitted character is an opening bracket (possibly with newlines
already swallowed since), in which case further newlines are deleted. -/
def cabAux : Bool → List Char → List Char
  | _, [] => []
  | justBracket, c :: rest =>
    if justBracket && c = '\n' then cabAux true rest
    else c :: cabAux (c = '[') rest

/-- re.sub(r"\[\n+", "[", .): newlines directly after an opening bracket
are deleted. -/
def collapseAfterBracket (cs : List Char) : List Char :=
  cabAux false cs

/-- re.sub(r"\n+\]\(", "](", .) as a one-pass scan: pending counts the
newlines seen but not yet emitted; they are dropped when the run is
followed directly by "](" and emitted unchanged otherwise. -/
def cbbAux : Nat → List Char → List Char
  | pending, [] => List.replicate pending '\n'
  | pending, ']' :: '(' :: rest2 =>
    if pending > 0 then ']' :: '(' :: cbbAux 0 rest2
    else ']' :: cbbAux 0 ('(' :: rest2)
  | pending, c :: rest =>
    if c = '\n' then cbbAux (pending + 1) rest
    else if pending > 0 then List.replicate pending '\n' ++ (c :: cbbAux 0 rest)
    else c :: cbbAux 0 rest

/-- re.sub(r"\n+\]\(", "](", .): newlines directly before a link's "]("
are deleted. -/
def collapseBeforeBracket (cs : List Char) : List Char :=
  cbbAux 0 cs

/-- re.sub(r"\[\]\(", "[ ](", .): an empty link label becomes a single
space. -/
def emptyLabelFix : List Char → List Char
  | '[' :: ']' :: '(' :: rest => '[' :: ' ' :: ']' :: '(' :: emptyLabelFix rest
  | c :: rest => c :: emptyLabelFix rest
  | [] => []

/-- Python str.split("\n") on a character list. -/
def splitLinesC : List Char → List (List Char)
  | [] => [[]]
  | c :: rest =>
    if c = '\n' then [] :: splitLinesC rest
    else
      match splitLinesC rest with
      | [] => [[c]]
      | h :: t => (c :: h) :: t

/-- Python str.split("\n"). -/
def splitLines (s : String) : List String :=
  (splitLinesC s.toList).map String.mk

/-- The fixed noise lines dropped within the first 40 lines. -/
def undesiredLine (l : String) : Bool :=
  let t := pyStrip l
  t = "·" || t = "Published in" || t = "--" || t = "1" || t = "Listen" || t = "Share"

/-- The boilerplate filter of parse_html: a line whose strip is in the
undesired set is dropped, but only at an index below 40 of the original
enumeration. -/
def dropNoise (idx : Nat) : List String → List String
  | [] => []
  | l :: rest =>
    if idx < 40 && undesiredLine l then dropNoise (idx + 1) rest
    else l :: dropNoise (idx + 1) rest

/-- re.sub(r"([^\n])```", "\1\n```", .): a fence glued to the end of a
line is pushed to its own line. -/
def fenceSepA : List Char → List Char
  | c :: t1 :: t2 :: t3 :: rest =>
    if c ≠ '\n' ∧ t1 = tickChar ∧ t2 = tickChar ∧ t3 = tickChar then
      c :: '\n' :: t1 :: t2 :: t3 :: fenceSepA rest
    else c :: fenceSepA (t1 :: t2 :: t3 :: rest)
  | c :: rest => c :: fenceSepA rest
  | [] => []

/-- re.sub(r"```([^\n])", "```\n\1", .): text glued after a fence is
pushed to the next line. -/
def fenceSepB : List Char → List Char
  | t1 :: t2 :: t3 :: c :: rest =>
    if t1 = tickChar ∧ t2 = tickChar ∧ t3 = tickChar ∧ c ≠ '\n' then
      t1 :: t2 :: t3 :: '\n' :: c :: fenceSepB rest
    else t1 :: fenceSepB (t2 :: t3 :: c :: rest)
  | c :: rest => c :: fenceSepB rest
  | [] => []

/-- re.fullmatch(r"\s*`+\s*", line): the line is whitespace around one
run of backticks. -/
def isFenceLine (s : String) : Bool :=
  let l1 := s.toList.dropWhile pyIsSpace
  let bt := l1.takeWhile (fun c => c = tickChar)
  let l2 := l1.dropWhile (fun c => c = tickChar)
  !(bt.isEmpty) && l2.all pyIsSpace

/-- The fence-normalization loop of parse_html: every backtick-only line
becomes the canonical "```", and a fence line whose previously appended
line is already "```" is dropped.  The Bool tracks whether the last
appended line is "```". -/
def normalizeFenceLines : Bool → List String → List String
  | _, [] => []
  | prevFence, l :: rest =>
    if isFenceLine l then
      if prevFence then normalizeFenceLines true rest
      else "```" :: normalizeFenceLines true rest
    else l :: normalizeFenceLines false rest

/-- The fence-balancing loop of parse_html: tracks fence open/close state
and inserts blank separator lines around fences.  lastLine is the last
emitted line (none while nothing has been emitted). -/
def balanceAux : Option String → Bool → List String → List String
  | _, _, [] => []
  | lastLine, fenceOpen, l :: rest =>
    if l = "```" then
      if fenceOpen then "```" :: "" :: balanceAux (some "") false rest
      else
        (match lastLine with
         | some prev => if isBlankLine prev then [] else [""]
         | none => []) ++ ("```" :: balanceAux (some "```") true rest)
    else l :: balanceAux (some l) fenceOpen rest

/-- The trailing while-pop of parse_html: trailing blank lines removed. -/
def dropTrailingBlanks (ls : List String) : List String :=
  (ls.reverse.dropWhile isBlankLine).reverse

/-- The fence-normalization plus fence-balancing passes of parse_html
(medium_parser.py lines 283-309), as the list of output lines. -/
def fencePassesLines (s : String) : List String :=
  dropTrailingBlanks (balanceAux none false
    (normalizeFenceLines false (splitLines (String.mk (fenceSepB (fenceSepA s.toList))))))

/-- The same passes as the output text. -/
def fencePasses (s : String) : String :=
  String.intercalate "\n" (fencePassesLines s)

/-- Fuel-driven scan: first index at or after j whose line satisfies p,
else the length (the shape of the inner while loops of the email-merge
pass; the fuel always suffices at the call sites). -/
def scanIdxAux (p : String → Bool) (lines : List String) : Nat → Nat → Nat
  | 0, _ => lines.length
  | fuel + 1, j =>
    if h : j < lines.length then
      if p lines[j] then j else scanIdxAux p lines fuel (j + 1)
    else lines.length

/-- First index at or after j whose line satisfies p, else the length. -/
def scanIdx (p : String → Bool) (lines : List String) (j : Nat) : Nat :=
  scanIdxAux p lines (lines.length + 1) j

/-- The email-header merge pass of parse_html (lines 312-339): a code
block starting "From:" separated from the next block only by blank lines
is merged with it.  Fuel bounds the while loop; the loop's index strictly
grows so the initial fuel is never exhausted. -/
def emailMergeAux : Nat → List String → Nat → List String
  | 0, lines, _ => lines
  | fuel + 1, lines, i =>
    if i + 3 < lines.length then
      if pyStrip (lines.getD i "") = "```" && decide (i + 1 < lines.length)
          && listStartsWith ((lines.getD (i + 1) "").toList.dropWhile pyIsSpace)
              "From:".toList then
        let j := scanIdx (fun l => pyStrip l = "```") lines (i + 2)
        if j ≥ lines.length then lines
        else
          let k := scanIdx (fun l => !(isBlankLine l)) lines (j + 1)
          let m := scanIdx (fun l => pyStrip l = "```") lines k
          if k < m then
            let lines1 := lines.eraseIdx j
            let m1 := m - 1
            let withBlank : Bool :=
              decide (j < lines1.length) && !(isBlankLine (lines1.getD j ""))
            let lines2 := if withBlank then lines1.insertIdx j "" else lines1
            let m2 := if withBlank then m1 + 1 else m1
            let lines3 :=
              if decide (m2 < lines2.length) && (pyStrip (lines2.getD m2 "") = "```") then
                lines2
              else lines2.insertIdx m2 "```"
            emailMergeAux fuel lines3 (m2 + 1)
          else emailMergeAux fuel lines (i + 1)
      else emailMergeAux fuel lines (i + 1)
    else lines

/-- The email-header merge pass over a line list. -/
def emailMerge (lines : List String) : List String :=
  emailMergeAux (lines.length + 4) lines 0

/-- Emit a run of pending newlines: three or more collapse to two. -/
def emitNewlineRun (n : Nat) : List Char :=
  if n ≥ 3 then ['\n', '\n'] else List.replicate n '\n'

/-- re.sub(r"\n{3,}", "\n\n", .) as a one-pass scan with a pending
newline count. -/
def cnlAux : Nat → List Char → List Char
  | pending, [] => emitNewlineRun pending
  | pending, c :: rest =>
    if c = '\n' then cnlAux (pending + 1) rest
    else emitNewlineRun pending ++ (c :: cnlAux 0 rest)

/-- re.sub(r"\n{3,}", "\n\n", .): 3 or more consecutive newlines collapse
to exactly two. -/
def collapseNewlines (cs : List Char) : List Char :=
  cnlAux 0 cs

/-- The Markdown post-processing chain of parse_html (lines 268-342):
unescape, link-bracket fixes, empty-label fix, the first-40-lines noise
filter, the fence passes, the email-header merge and the blank-line
collapse, in source order.  Joining and re-splitting on newline between
the line stages is the identity on line lists and is elided. -/
def mdPasses (raw : String) : String :=
  let cs := emptyLabelFix (collapseBeforeBracket (collapseAfterBracket (unescapeAux raw.toList)))
  let filtered := dropNoise 0 (splitLines (String.mk cs))
  let fenced := fencePassesLines (String.intercalate "\n" filtered)
  let merged := emailMerge fenced
  String.mk (collapseNewlines (String.intercalate "\n" merged).toList)

/-- Regex \w for the title normalizer, ASCII. -/
def isWordChar (c : Char) : Bool :=
  c.isAlphanum || c = '_'

/-- re.sub(r"\s+", "-", .) as a one-pass scan: the Bool records being
inside a whitespace run (whose hyphen is already emitted). -/
def hwAux : Bool → List Char → List Char
  | _, [] => []
  | inWs, c :: rest =>
    if pyIsSpace c then
      if inWs then hwAux true rest else '-' :: hwAux true rest
    else c :: hwAux false rest

/-- re.sub(r"\s+", "-", .): each whitespace run becomes one hyphen. -/
def hyphenateWs (cs : List Char) : List Char :=
  hwAux false cs

/-- parser/medium_parser.py normalize_title: strip, remove characters
that are neither word characters nor whitespace nor hyphen, then turn
whitespace runs into hyphens. -/
def normalize_title (t : String) : String :=
  let cs := pyStripList t.toList
  String.mk (hyphenateWs (cs.filter (fun c => isWordChar c || pyIsSpace c || c = '-')))

/-- models.py ArticleParseResult dataclass. -/
structure ArticleParseResult where
  error : Bool
  markdown : String
  title : Option String := none
  message : Option String := none
deriving Repr, DecidableEq

/-- models.py ArticleParseResult.success. -/
def ArticleParseResult.success (markdown title : String) : ArticleParseResult :=
  { error := false, markdown := markdown, title := some title }

/-- models.py ArticleParseResult.failure. -/
def ArticleParseResult.failure (message : String) : ArticleParseResult :=
  { error := true, markdown := message, message := some message }

/-- The parsed-and-cleaned state of one HTML document as parse_html's
title logic and converter consume it.  BeautifulSoup parsing, the tree
cleanup and the markdownify conversion are external libraries; they are
deterministic functions of the html text and source_url, abstracted
here into the fields: hasArticle is soup.find("article") is not None,
metaTitle is the content of a meta name="title" tag when present and
non-empty (Python truthiness of meta.get("content")), h1Text is the
first article h1's stripped text when present, and bodyMarkdown is the
markdownify output of the cleaned tree as a function of source_url
(source_url enters the tree through the injected Reference link). -/
structure MdDoc where
  hasArticle : Bool
  metaTitle : Option String
  h1Text : Option String
  bodyMarkdown : String → String

/-- parser/medium_parser.py MediumMarkdownParser.parse_html over the
abstracted document, with the uuid.uuid4() draw of the placeholder-title
branch passed explicitly as uuid4hex (it is the call's only source of
nondeterminism). -/
def parse_html (doc : MdDoc) (source_url : String) (uuid4hex : String) :
    ArticleParseResult :=
  if doc.hasArticle = false then
    ArticleParseResult.failure "Error: No article found on the page."
  else
    let metaT := match doc.metaTitle with
      | some c => pyStrip c
      | none => ""
    let title :=
      if metaT ≠ "" then metaT
      else
        match doc.h1Text with
        | some t => t
        | none => "Untitled-Article-Title-" ++ uuid4hex
    ArticleParseResult.success (mdPasses (doc.bodyMarkdown source_url)) (normalize_title title)

/-- Number of canonical fence lines in a line list. -/
def countFences (ls : List String) : Nat :=
  (ls.filter (fun l => l = "```")).length

/-- Number of maximal runs of backtick-only lines (the Bool says whether
the previous line was in a run). -/
def fenceRunCount : Bool → List String → Nat
  | _, [] => 0
  | prevF, l :: rest =>
    if isFenceLine l then
      if prevF then fenceRunCount true rest
      else 1 + fenceRunCount true rest
    else fenceRunCount false rest

/-- Number of lone-backtick lines (lines that are exactly one backtick)
of a text. -/
def countLoneBacktickLines (s : String) : Nat :=
  ((splitLines s).filter (fun l => l = String.mk [tickChar])).length

def docNoTitle : MdDoc :=
  { hasArticle := true, metaTitle := none, h1Text := none, bodyMarkdown := fun _ => "" }

def docTitled : MdDoc :=
  { hasArticle := true, metaTitle := none, h1Text := some "Hello World",
    bodyMarkdown := fun u => "See " ++ u }

/-- One per-URL outcome record of concurrent.fetch_all._one: the dict
{url, ok:true, status_code, headers, text} on fetch success, the dict
{url, ok:false, error} on any exception. -/
inductive FetchResult where
  | ok : String → Int → List (String × String) → String → FetchResult
  | err : String → String → FetchResult
deriving Repr, DecidableEq

/-- The body of fetch_all._one for one URL.  safeFetch gives the awaited
outcome of sender.fetch for that URL (the response, or the message of
the exception raised). -/
def fetchOne (safeFetch : String → Except String HttpResponse) (url : String) :
    FetchResult :=
  match safeFetch url with
  | Except.ok resp => FetchResult.ok resp.url resp.status_code resp.headers resp.text
  | Except.error e => FetchResult.err url e

/-- One per-URL outcome record of scrape_markdown_all._one. -/
inductive ScrapeResult where
  | ok : String → Option String → String → ScrapeResult
  | err : String → String → ScrapeResult
deriving Repr, DecidableEq

/-- The body of scrape_markdown_all._one for one URL: fetch, then
parse_html on the response text; a parse failure reports
parsed.message or "parse failed".  parseDoc is the external
BeautifulSoup/markdownify stage producing the abstracted document of
the response text. -/
def scrapeOne (safeFetch : String → Except String HttpResponse)
    (parseDoc : String → MdDoc) (uuid4hex : String) (url : String) : ScrapeResult :=
  match safeFetch url with
  | Except.error e => ScrapeResult.err url e
  | Except.ok resp =>
    let parsed := parse_html (parseDoc resp.text) resp.url uuid4hex
    if parsed.error then
      ScrapeResult.err resp.url
        (match parsed.message with
         | some m => if m = "" then "parse failed" else m
         | none => "parse failed")
    else ScrapeResult.ok resp.url parsed.title parsed.markdown

/-- The concurrent run of one task per URL, under an arbitrary completion
schedule: sched lists the task indices in the order the event loop
completes them (any permutation of the input positions), and
asyncio.gather places each task's result at the task's position in the
input list.  Models asyncio.create_task per url + asyncio.gather(*tasks)
(external library). -/
def runConcurrent {ρ : Type} (f : String → ρ) (urls : List String)
    (sched : List Nat) : List ρ :=
  let completed := sched.filterMap (fun i => (urls[i]?).map (fun u => (i, f u)))
  (List.range urls.length).filterMap
    (fun i => (completed.find? (fun p => p.1 = i)).map (fun p => p.2))

/-- concurrent.py fetch_all over a completion schedule. -/
def fetch_all (safeFetch : String → Except String HttpResponse)
    (urls : List String) (sched : List Nat) : List FetchResult :=
  runConcurrent (fetchOne safeFetch) urls sched

/-- concurrent.py scrape_markdown_all over a completion schedule. -/
def scrape_markdown_all (safeFetch : String → Except String HttpResponse)
    (parseDoc : String → MdDoc) (uuid4hex : String)
    (urls : List String) (sched : List Nat) : List ScrapeResult :=
  runConcurrent (scrapeOne safeFetch parseDoc uuid4hex) urls sched

def urlA : String := "https://medium.com/p/a"

def urlB : String := "https://medium.com/p/b"

def urlC : String := "https://medium.com/p/c"

def safeFetchW : String → Except String HttpResponse := fun u =>
  if u = urlA then Except.error "boom"
  else Except.ok { url := u, status_code := 200, headers := [], text := "<article>x</article>" }

def parseDocW : String → MdDoc := fun t =>
  { hasArticle := true, metaTitle := some "Title", h1Text := none,
    bodyMarkdown := fun _ => t }

/-- The three per-task outcomes the orchestrators count: fetch+parse
success, fetch failure, parse failure (the last arises only in
scrape_markdown_all). -/
inductive TaskKind where
  | success : TaskKind
  | failed : TaskKind
  | parseFailed : TaskKind
deriving Repr, DecidableEq

/-- The progress data handed to one callback invocation: the completed
and total counters plus the stats dict's counting entries (fetch_all's
stats dict simply has no parse_failed key, i.e. the field stays 0). -/
structure ProgressStats where
  completed : Nat
  total : Nat
  success : Nat
  failed : Nat
  parse_failed : Nat
deriving Repr, DecidableEq

/-- The state at the initial callback: 0 completed, all counters 0. -/
def initStats (total : Nat) : ProgressStats :=
  { completed := 0, total := total, success := 0, failed := 0, parse_failed := 0 }

/-- One task completion: the task's counter and completed both increase
by one inside the task's uninterrupted post-await section. -/
def stepStats (s : ProgressStats) (k : TaskKind) : ProgressStats :=
  match k with
  | TaskKind.success =>
    { s with success := s.success + 1, completed := s.completed + 1 }
  | TaskKind.failed =>
    { s with failed := s.failed + 1, completed := s.completed + 1 }
  | TaskKind.parseFailed =>
    { s with parse_failed := s.parse_failed + 1, completed := s.completed + 1 }

/-- The snapshots emitted after each completion, from state s on. -/
def snapshotsAux (s : ProgressStats) : List TaskKind → List ProgressStats
  | [] => []
  | k :: rest => stepStats s k :: snapshotsAux (stepStats s k) rest

/-- All snapshots one run passes to the progress callback: the initial
0/total snapshot, then one per task completion, in completion order
(concurrent.py lines 37-38/63-66 and 102-103/124-127; each task's
update-and-callback section runs without an interleaving await, so the
snapshot sequence is exactly this fold over the completion order). -/
def progressSnapshots (total : Nat) (ks : List TaskKind) : List ProgressStats :=
  initStats total :: snapshotsAux (initStats total) ks

lemma lookupStore_cacheDelete (st : Store) (k k' : String) :
    lookupStore (cacheDelete st k) k' = if k' = k then none else lookupStore st k' := by
  induction st with
  | nil => simp [cacheDelete, lookupStore]
  | cons p rest ih =>
    by_cases h1 : p.1 = k
    · simp only [cacheDelete, if_pos h1, ih]
      by_cases h2 : k' = k
      · simp [h2]
      · have hp : ¬ p.1 = k' := by
          rw [h1]
          intro hh
          exact h2 hh.symm
        simp [h2, lookupStore, hp]
    · simp only [cacheDelete, if_neg h1]
      by_cases h3 : p.1 = k'
      · have hk : ¬ k' = k := by
          intro hh
          rw [hh] at h3
          exact h1 h3
        simp [lookupStore, h3, hk]
      · simp [lookupStore, h3, ih]

lemma lookupStore_insertStore (st : Store) (k : String) (r : StoredRow) (k' : String) :
    lookupStore (insertStore k r st) k' = if k' = k then some r else lookupStore st k' := by
  simp only [insertStore, lookupStore]
  by_cases h : k = k'
  · simp [h]
  · have h' : ¬ k' = k := fun hh => h hh.symm
    simp [h, h', lookupStore_cacheDelete]

lemma lookupStore_cacheSet_of (st : Store) (key : String) (resp : HttpResponse)
    (ttl : Option ℚ) (now : ℚ) (k' : String) (row : StoredRow)
    (h : lookupStore (cacheSet st key resp ttl now) k' = some row) :
    lookupStore st k' = some row ∨ row.status_code = 200 := by
  unfold cacheSet at h
  by_cases hs : resp.status_code ≠ 200
  · rw [if_pos hs] at h
    exact Or.inl h
  · rw [if_neg hs] at h
    rw [lookupStore_insertStore] at h
    by_cases hk : k' = key
    · rw [if_pos hk] at h
      right
      cases h
      exact not_not.mp hs
    · rw [if_neg hk] at h
      exact Or.inl h

lemma cacheGet_snd_cases (st : Store) (k : String) (now : ℚ) :
    (cacheGet st k now).2 = st ∨ (cacheGet st k now).2 = cacheDelete st k := by
  cases hl : lookupStore st k with
  | none => left; simp [cacheGet, hl]
  | some row =>
    cases ht : row.ttl_seconds with
    | none => left; simp [cacheGet, hl, ht]
    | some t =>
      by_cases hc : now - row.created_at > t
      · right; simp [cacheGet, hl, ht, hc]
      · left; simp [cacheGet, hl, ht, hc]

lemma cacheGet_hit_pair (st : Store) (k : String) (now : ℚ) (c : HttpResponse)
    (h : (cacheGet st k now).1 = some c) : cacheGet st k now = (some c, st) := by
  cases hl : lookupStore st k with
  | none =>
    simp [cacheGet, hl] at h
  | some row =>
    cases ht : row.ttl_seconds with
    | none =>
      simp [cacheGet, hl, ht] at h ⊢
      exact h
    | some t =>
      by_cases hc : now - row.created_at > t
      · simp [cacheGet, hl, ht, hc] at h
      · simp [cacheGet, hl, ht, hc] at h ⊢
        exact h

lemma lookupStore_cacheGet_snd (st : Store) (k : String) (now : ℚ) (k' : String)
    (row : StoredRow) (h : lookupStore ((cacheGet st k now).2) k' = some row) :
    lookupStore st k' = some row := by
  rcases cacheGet_snd_cases st k now with h2 | h2 <;> rw [h2] at h
  · exact h
  · rw [lookupStore_cacheDelete] at h
    by_cases hk : k' = k
    · rw [if_pos hk] at h
      cases h
    · rw [if_neg hk] at h
      exact h

/-- C1 counterexample: the URL "https://notmedium.com/a" has scheme https
but its host notmedium.com is outside the medium.com domain, yet fetch
does not reject it: it returns the transport's response and issues a GET
through the underlying transport.  The claim "fetch rejects the request
unless ... its host belongs to the target platform's domain (medium.com)"
is therefore false of the code, whose gate only checks that the netloc
string ends with the characters "medium.com". -/
theorem fetch_domain_gate_counterexample :
    urlHostInMediumDomain "https://notmedium.com/a" = false ∧
    is_safe_url "https://notmedium.com/a" = true ∧
    fetch constRequest "https://notmedium.com/a" =
      { result := Except.ok respNot, issued := [("GET", "https://notmedium.com/a")] } := by
  refine ⟨rfl, rfl, ?_⟩
  rfl

/-- C1 amended: RequestSender.fetch runs the safety gate before every
request: when is_safe_url is false it raises ValueError("Unsafe URL")
and issues no transport request, when true it issues exactly one GET to
the underlying transport and returns its response; and is_safe_url holds
exactly when the parsed scheme is "https" and the parsed netloc ends with
the string "medium.com" (which is weaker than membership in the
medium.com domain). -/
theorem fetch_gate_characterization (request : String → String → HttpResponse)
    (url : String) :
    (is_safe_url url = false →
      fetch request url = { result := Except.error "Unsafe URL", issued := [] }) ∧
    (is_safe_url url = true →
      fetch request url =
        { result := Except.ok (request "GET" url), issued := [("GET", url)] }) ∧
    (is_safe_url url =
      ((pyUrlparseSchemeNetloc url).1 = "https" &&
        strEndsWith (pyUrlparseSchemeNetloc url).2 "medium.com")) := by
  refine ⟨?_, ?_, rfl⟩
  · intro h
    simp [fetch, h]
  · intro h
    simp [fetch, h]

/-- C1 witness: the gate at the two concrete URLs http://medium.com/a
(insecure scheme, rejected with no transport request) and
https://medium.com/x (accepted). -/
theorem fetch_gate_characterization_witness :
    (is_safe_url "http://medium.com/a" = false ∧
      fetch constRequest "http://medium.com/a" =
        { result := Except.error "Unsafe URL", issued := [] }) ∧
    (is_safe_url "https://medium.com/x" = true ∧
      fetch constRequest "https://medium.com/x" =
        { result := Except.ok respNot, issued := [("GET", "https://medium.com/x")] }) :=
  ⟨⟨rfl, (fetch_gate_characterization constRequest "http://medium.com/a").1 rfl⟩,
   ⟨rfl, (fetch_gate_characterization constRequest "https://medium.com/x").2.1 rfl⟩⟩

/-- C2: through the cached sender, every row present in the store after a
request was either already present before it or has status code 200; and
whenever the call reached the underlying transport (bypass, or a cache
miss), the transport's response — whatever its status code, e.g. 404 —
is returned unchanged to the caller. -/
theorem cachedRequest_only_200_persisted
    (sha256hex : String → String) (inner : HttpResponse) (st : Store)
    (method url : String) (headers : Option (List (String × String)))
    (json_body : Option PyJson) (data_body : Option String)
    (ttl_seconds default_ttl_seconds : Option ℚ) (bypass_cache : Bool) (now : ℚ)
    (k : String) (row : StoredRow)
    (hrow : lookupStore (cachedRequest sha256hex inner st method url headers
        json_body data_body ttl_seconds default_ttl_seconds bypass_cache now).2 k
      = some row) :
    (lookupStore st k = some row ∨ row.status_code = 200) ∧
    ((bypass_cache = true ∨
        (cacheGet st (stable_key sha256hex method url headers json_body data_body) now).1
          = none) →
      (cachedRequest sha256hex inner st method url headers json_body data_body
        ttl_seconds default_ttl_seconds bypass_cache now).1 = inner) := by
  have hbypass : ∀ hb : bypass_cache = true,
      cachedRequest sha256hex inner st method url headers json_body data_body
        ttl_seconds default_ttl_seconds bypass_cache now
      = (inner, cacheSet st (stable_key sha256hex method url headers json_body data_body)
          inner (effectiveTtl ttl_seconds default_ttl_seconds) now) := by
    intro hb
    unfold cachedRequest
    rw [hb]
    simp
  have hmain : ∀ hb : bypass_cache = false,
      cachedRequest sha256hex inner st method url headers json_body data_body
        ttl_seconds default_ttl_seconds bypass_cache now
      = (match cacheGet st (stable_key sha256hex method url headers json_body data_body) now with
         | (some cached, st') => (cached, st')
         | (none, st') =>
           (inner, cacheSet st' (stable_key sha256hex method url headers json_body data_body)
             inner (effectiveTtl ttl_seconds default_ttl_seconds) now)) := by
    intro hb
    unfold cachedRequest
    rw [hb]
    simp
  by_cases hb : bypass_cache = true
  · rw [hbypass hb] at hrow ⊢
    exact ⟨lookupStore_cacheSet_of _ _ _ _ _ _ _ hrow, fun _ => rfl⟩
  · have hb' : bypass_cache = false := by
      cases bypass_cache
      · rfl
      · exact absurd rfl hb
    rw [hmain hb'] at hrow ⊢
    cases ho : (cacheGet st (stable_key sha256hex method url headers json_body data_body) now).1
      with
    | some c =>
      have hpair := cacheGet_hit_pair st
        (stable_key sha256hex method url headers json_body data_body) now c ho
      rw [hpair] at hrow ⊢
      refine ⟨Or.inl hrow, ?_⟩
      intro hcase
      rcases hcase with hcase | hcase
      · exact absurd hcase hb
      · exact Option.noConfusion hcase
    | none =>
      have hpair : cacheGet st (stable_key sha256hex method url headers json_body data_body) now
          = (none, (cacheGet st (stable_key sha256hex method url headers json_body
              data_body) now).2) := by
        rw [← ho]
      rw [hpair] at hrow ⊢
      refine ⟨?_, fun _ => rfl⟩
      rcases lookupStore_cacheSet_of _ _ _ _ _ _ _ hrow with h2 | h2
      · exact Or.inl (lookupStore_cacheGet_snd _ _ _ _ _ h2)
      · exact Or.inr h2

/-- C2 witness: a 404 transport response routed through the cached sender
over a store holding one 200 row leaves the store's rows either
pre-existing or status-200, and the 404 is returned to the caller. -/
theorem cachedRequest_only_200_persisted_witness :
    (lookupStore (cachedRequest idDigest resp404 st200 "GET" "https://medium.com/missing"
        none none none none none false 0).2 "k0" = some row200) ∧
    ((lookupStore st200 "k0" = some row200 ∨ row200.status_code = 200) ∧
      ((false = true ∨
          (cacheGet st200 (stable_key idDigest "GET" "https://medium.com/missing"
            none none none) 0).1 = none) →
        (cachedRequest idDigest resp404 st200 "GET" "https://medium.com/missing"
          none none none none none false 0).1 = resp404)) := by
  have hrow : lookupStore (cachedRequest idDigest resp404 st200 "GET"
      "https://medium.com/missing" none none none none none false 0).2 "k0"
      = some row200 := by
    rfl
  exact ⟨hrow, cachedRequest_only_200_persisted idDigest resp404 st200 "GET"
    "https://medium.com/missing" none none none none none false 0 "k0" row200 hrow⟩

/-- C3: the cache fingerprint of cached_sender._stable_key never depends
on the headers argument: for every method, url and body (json or data),
and for any digest function, two calls that differ only in headers yield
the same key.  (The source serializes only method, url, json and data.) -/
theorem stable_key_ignores_headers (sha256hex : String → String)
    (method url : String) (h₁ h₂ : Option (List (String × String)))
    (json_body : Option PyJson) (data_body : Option String) :
    stable_key sha256hex method url h₁ json_body data_body
      = stable_key sha256hex method url h₂ json_body data_body := rfl

/-- C4: if the store holds a row for key k, then when the row carries a
ttl and the read happens more than ttl seconds after created_at, get
returns a miss and deletes the row, so any subsequent get for that key
also misses; when the row carries no ttl, get returns the stored response
unchanged no matter how much later the read happens. -/
theorem cacheGet_ttl_expiry (st : Store) (k : String) (row : StoredRow)
    (now now' : ℚ) (hrow : lookupStore st k = some row) :
    (∀ t, row.ttl_seconds = some t → now - row.created_at > t →
      cacheGet st k now = (none, cacheDelete st k) ∧
      (cacheGet (cacheGet st k now).2 k now').1 = none) ∧
    (row.ttl_seconds = none →
      cacheGet st k now = (some (rowToResponse row), st)) := by
  constructor
  · intro t ht hexp
    have hmiss : cacheGet st k now = (none, cacheDelete st k) := by
      simp [cacheGet, hrow, ht, hexp]
    refine ⟨hmiss, ?_⟩
    rw [hmiss]
    have hnone : lookupStore (cacheDelete st k) k = none := by
      rw [lookupStore_cacheDelete]
      simp
    simp [cacheGet, hnone]
  · intro ht
    simp [cacheGet, hrow, ht]

/-- C4 witness: a row written with ttl = 1 at time 0 and read at time 2
misses and is purged, and the follow-up read at time 3 misses too; the
ttl-free row is still returned at time 100. -/
theorem cacheGet_ttl_expiry_witness :
    (cacheGet stTtl "kt" 2 = (none, cacheDelete stTtl "kt") ∧
      (cacheGet (cacheGet stTtl "kt" 2).2 "kt" 3).1 = none) ∧
    cacheGet stTtl "kn" 100 = (some (rowToResponse row200), stTtl) := by
  have h1 := cacheGet_ttl_expiry stTtl "kt" rowTtl 2 3 (by rfl)
  have h2 := cacheGet_ttl_expiry stTtl "kn" row200 100 0 (by rfl)
  exact ⟨h1.1 1 rfl (by norm_num [rowTtl]), h2.2 rfl⟩

lemma getArticlesLoop_acc (fmt : Int → String) (category : String)
    (rs : List FeedResp) (acc : List Article) :
    getArticlesLoop fmt category rs acc
      = (acc ++ (getArticlesLoop fmt category rs []).1,
         (getArticlesLoop fmt category rs []).2) := by
  induction rs generalizing acc with
  | nil => simp [getArticlesLoop]
  | cons r rest ih =>
    cases r with
    | malformed => simp [getArticlesLoop]
    | page edges =>
      by_cases he : edges.isEmpty
      · simp [getArticlesLoop, he]
      · have he' : edges.isEmpty = false := by
          cases h : edges.isEmpty
          · rfl
          · exact absurd h he
        cases hc : lastCursorOf edges with
        | missing => simp [getArticlesLoop, he', hc]
        | nullVal =>
          simp only [getArticlesLoop, he', hc, Bool.false_eq_true, if_neg]
          rw [ih ([] ++ collectUntilFailure fmt category edges),
            ih (acc ++ collectUntilFailure fmt category edges)]
          simp
        | val s =>
          simp only [getArticlesLoop, he', hc, Bool.false_eq_true, if_neg]
          rw [ih ([] ++ collectUntilFailure fmt category edges),
            ih (acc ++ collectUntilFailure fmt category edges)]
          simp

/-- C6: for every tag window, a response with an empty edge list or a
structural parse failure ends the pagination loop without raising, and
get_articles_by_category returns exactly the articles collected from the
earlier well-formed non-empty pages (in page order). -/
theorem pagination_ends_without_error (fmt : Int → String) (category : String)
    (pages : List (List FeedEdge)) (term : FeedResp)
    (hterm : term = FeedResp.malformed ∨ term = FeedResp.page [])
    (hpages : ∀ p ∈ pages, p.isEmpty = false ∧ lastCursorOf p ≠ CursorField.missing) :
    get_articles_by_category fmt category (pages.map FeedResp.page ++ [term])
      = ((pages.map (collectUntilFailure fmt category)).flatten, true) := by
  unfold get_articles_by_category
  revert hpages
  induction pages with
  | nil =>
    intro _
    rcases hterm with h | h <;> subst h <;> simp [getArticlesLoop]
  | cons p ps ih =>
    intro hpages
    obtain ⟨hne, hcur⟩ := hpages p (by simp)
    have hrest : ∀ q ∈ ps, q.isEmpty = false ∧ lastCursorOf q ≠ CursorField.missing :=
      fun q hq => hpages q (by simp [hq])
    simp only [List.map_cons, List.cons_append]
    cases hc : lastCursorOf p with
    | missing => exact absurd hc hcur
    | nullVal =>
      simp only [getArticlesLoop, hne, hc, Bool.false_eq_true, if_neg]
      rw [getArticlesLoop_acc, ih hrest]
      simp
    | val s =>
      simp only [getArticlesLoop, hne, hc, Bool.false_eq_true, if_neg]
      rw [getArticlesLoop_acc, ih hrest]
      simp

/-- C6 witness: a feed of 3 non-empty pages followed by one empty-edges
page ends the loop (flag true) and yields exactly the 4 articles of the
first 3 pages. -/
theorem pagination_ends_without_error_witness :
    get_articles_by_category fmt0 "example" (pagesW.map FeedResp.page ++ [FeedResp.page []])
      = ((pagesW.map (collectUntilFailure fmt0 "example")).flatten, true) ∧
    ((pagesW.map (collectUntilFailure fmt0 "example")).flatten).length = 4 :=
  ⟨pagination_ends_without_error fmt0 "example" pagesW (FeedResp.page [])
    (Or.inr rfl) (by decide), rfl⟩

/-- C7 counterexample: on a page whose first edge is malformed (missing
node) and whose second edge is well formed, no article at all is
produced for the page — the well-formed second edge is NOT converted,
refuting "articles are still produced for every other well-formed edge
of that page".  (The try/except wraps the whole per-page for loop, not
each item.) -/
theorem malformed_edge_not_skipped_individually :
    convertEdge fmt0 "tag" badEdge = none ∧
    (convertEdge fmt0 "tag" goodEdge).isSome = true ∧
    collectUntilFailure fmt0 "tag" [badEdge, goodEdge] = [] :=
  ⟨rfl, rfl, rfl⟩

/-- C7 amended: within one feed page, the first failing edge aborts the
remainder of that page's conversion: exactly the well-formed edges
preceding it produce articles (those already appended are kept, the
later edges of the page — well-formed or not — are dropped), and
pagination continues with the next page rather than failing. -/
lemma collectUntilFailure_append (fmt : Int → String) (category : String)
    (good : List FeedEdge) (bad : FeedEdge) (rest : List FeedEdge)
    (hgood : ∀ e ∈ good, (convertEdge fmt category e).isSome = true)
    (hbad : convertEdge fmt category bad = none) :
    collectUntilFailure fmt category (good ++ bad :: rest)
      = good.filterMap (convertEdge fmt category) := by
  induction good with
  | nil => simp [collectUntilFailure, hbad]
  | cons g gs ih =>
    have hg := hgood g (by simp)
    cases hcg : convertEdge fmt category g with
    | none => rw [hcg] at hg; simp at hg
    | some a =>
      simp only [List.cons_append, collectUntilFailure, hcg, List.filterMap_cons,
        List.append_eq]
      rw [ih (fun e he => hgood e (by simp [he]))]

/-- C7 amended: within one feed page, the first failing edge aborts the
remainder of that page's conversion: exactly the well-formed edges
preceding it produce articles (those already appended are kept, the
later edges of the page — well-formed or not — are dropped), and
pagination continues with the next page rather than failing. -/
theorem malformed_edge_skips_rest_of_page (fmt : Int → String) (category : String)
    (good : List FeedEdge) (bad : FeedEdge) (rest : List FeedEdge)
    (more : List FeedResp) (acc : List Article)
    (hgood : ∀ e ∈ good, (convertEdge fmt category e).isSome = true)
    (hbad : convertEdge fmt category bad = none)
    (hcur : lastCursorOf (good ++ bad :: rest) ≠ CursorField.missing) :
    collectUntilFailure fmt category (good ++ bad :: rest)
      = good.filterMap (convertEdge fmt category) ∧
    getArticlesLoop fmt category (FeedResp.page (good ++ bad :: rest) :: more) acc
      = getArticlesLoop fmt category more
          (acc ++ good.filterMap (convertEdge fmt category)) := by
  have hcollect := collectUntilFailure_append fmt category good bad rest hgood hbad
  refine ⟨hcollect, ?_⟩
  have hne : (good ++ bad :: rest).isEmpty = false := by
    cases good <;> rfl
  cases hc : lastCursorOf (good ++ bad :: rest) with
  | missing => exact absurd hc hcur
  | nullVal => simp [getArticlesLoop, hne, hc, hcollect]
  | val s => simp [getArticlesLoop, hne, hc, hcollect]

/-- C7 witness: concrete page [good, bad, good]: only the first good
edge's article is produced and the loop moves on to the next response. -/
theorem malformed_edge_skips_rest_of_page_witness :
    collectUntilFailure fmt0 "tag" ([goodEdge] ++ badEdge :: [goodEdge])
      = [goodEdge].filterMap (convertEdge fmt0 "tag") ∧
    getArticlesLoop fmt0 "tag"
        (FeedResp.page ([goodEdge] ++ badEdge :: [goodEdge]) :: [FeedResp.page []]) []
      = getArticlesLoop fmt0 "tag" [FeedResp.page []]
          ([] ++ [goodEdge].filterMap (convertEdge fmt0 "tag")) :=
  malformed_edge_skips_rest_of_page fmt0 "tag" [goodEdge] badEdge [goodEdge]
    [FeedResp.page []] [] (by decide) rfl (by decide)

lemma countFences_cons (l : String) (ls : List String) :
    countFences (l :: ls) = (if l = "```" then 1 else 0) + countFences ls := by
  unfold countFences
  rw [List.filter_cons]
  by_cases h : l = "```" <;> simp [h, Nat.add_comm]

lemma countFences_append (l₁ l₂ : List String) :
    countFences (l₁ ++ l₂) = countFences l₁ + countFences l₂ := by
  simp [countFences, List.filter_append]

lemma countFences_normalizeFenceLines (b : Bool) (ls : List String) :
    countFences (normalizeFenceLines b ls) = fenceRunCount b ls := by
  induction ls generalizing b with
  | nil => rfl
  | cons l rest ih =>
    by_cases hf : isFenceLine l
    · by_cases hb : b
      · simp [normalizeFenceLines, fenceRunCount, hf, hb, ih]
      · simp [normalizeFenceLines, fenceRunCount, hf, hb, ih, countFences_cons]
    · have hne : ¬ (l = "```") := by
        intro he
        rw [he] at hf
        exact hf (by decide)
      simp [normalizeFenceLines, fenceRunCount, hf, ih, countFences_cons, hne]

lemma countFences_balanceAux (lastLine : Option String) (b : Bool) (ls : List String) :
    countFences (balanceAux lastLine b ls) = countFences ls := by
  induction ls generalizing lastLine b with
  | nil => rfl
  | cons l rest ih =>
    by_cases he : l = "```"
    · subst he
      by_cases hb : b
      · simp [balanceAux, hb, countFences_cons, ih]
      · cases lastLine with
        | none => simp [balanceAux, hb, countFences_cons, ih]
        | some prev =>
          by_cases hp : isBlankLine prev <;>
            simp [balanceAux, hb, hp, countFences_cons, countFences_append, ih]
    · simp [balanceAux, he, countFences_cons, ih]

lemma countFences_dropWhileBlank (ls : List String) :
    countFences (ls.dropWhile isBlankLine) = countFences ls := by
  induction ls with
  | nil => rfl
  | cons l rest ih =>
    by_cases hb : isBlankLine l
    · have hne : ¬ (l = "```") := by
        intro he
        rw [he] at hb
        exact absurd hb (by decide)
      simp [List.dropWhile_cons, hb, ih, countFences_cons, hne]
    · simp [List.dropWhile_cons, hb]

lemma countFences_reverse (ls : List String) :
    countFences ls.reverse = countFences ls := by
  induction ls with
  | nil => rfl
  | cons l rest ih =>
    have h0 : countFences [l] = (if l = "```" then 1 else 0) := by
      rw [countFences_cons]
      simp [countFences]
    simp [List.reverse_cons, countFences_append, countFences_cons, ih, h0, Nat.add_comm]

lemma countFences_dropTrailingBlanks (ls : List String) :
    countFences (dropTrailingBlanks ls) = countFences ls := by
  unfold dropTrailingBlanks
  rw [countFences_reverse, countFences_dropWhileBlank, countFences_reverse]

/-- C9 counterexample: the input "a\n`\nb" has one lone-backtick line (an
odd number), yet the fence passes emit exactly one fence line — an odd,
unbalanced count — refuting the claim that such inputs always yield an
even, balanced number of triple-backtick fence lines. -/
theorem fence_balancing_counterexample :
    countLoneBacktickLines "a\n\x60\nb" = 1 ∧
    fencePasses "a\n\x60\nb" = "a\n\n\x60\x60\x60\nb" ∧
    countFences (fencePassesLines "a\n\x60\nb") = 1 ∧
    ¬ Even (countFences (fencePassesLines "a\n\x60\nb")) := by
  refine ⟨rfl, rfl, rfl, ?_⟩
  rw [show countFences (fencePassesLines "a\n\x60\nb") = 1 from rfl]
  decide

/-- C9 amended: the fence-normalization and fence-balancing passes emit
exactly one canonical "```" line per maximal run of backtick-only lines
of the newline-normalized text — the balancing pass inserts separators
but never adds or removes a fence, so the output fence count is even
(balanced) exactly when that run count is even; an input whose
lone-backtick lines form an odd number of runs therefore yields an odd,
unbalanced fence count. -/
theorem fence_passes_run_count (s : String) :
    countFences (fencePassesLines s)
      = fenceRunCount false (splitLines (String.mk (fenceSepB (fenceSepA s.toList)))) ∧
    (Even (countFences (fencePassesLines s))
      ↔ Even (fenceRunCount false (splitLines (String.mk (fenceSepB (fenceSepA s.toList)))))) := by
  have h : countFences (fencePassesLines s)
      = fenceRunCount false (splitLines (String.mk (fenceSepB (fenceSepA s.toList)))) := by
    unfold fencePassesLines
    rw [countFences_dropTrailingBlanks, countFences_balanceAux,
      countFences_normalizeFenceLines]
  exact ⟨h, by rw [h]⟩

/-- C5 counterexample: on a document with an article but no meta title
and no h1, the title falls back to the random placeholder
"Untitled-Article-Title-" ++ uuid4(): two calls on identical html and
source_url that draw different uuids return different results, refuting
determinism over all inputs. -/
theorem parse_html_nondeterministic_counterexample :
    parse_html docNoTitle "https://medium.com/p/x" "aaa"
      ≠ parse_html docNoTitle "https://medium.com/p/x" "bbb" := by
  decide

/-- C5 amended: parse_html is deterministic in everything except the
random placeholder title: the error flag and the markdown never depend
on the uuid draw, and whenever the title resolves from the meta tag or
a heading (or the document has no article), two calls with the same html
and source_url return identical results. -/
theorem parse_html_deterministic_modulo_title (doc : MdDoc) (source_url : String)
    (u₁ u₂ : String) :
    ((parse_html doc source_url u₁).error = (parse_html doc source_url u₂).error ∧
     (parse_html doc source_url u₁).markdown = (parse_html doc source_url u₂).markdown) ∧
    ((pyStrip (doc.metaTitle.getD "") ≠ "" ∨ doc.h1Text ≠ none ∨ doc.hasArticle = false) →
      parse_html doc source_url u₁ = parse_html doc source_url u₂) := by
  by_cases ha : doc.hasArticle = false
  · exact ⟨by simp [parse_html, ha], fun _ => by simp [parse_html, ha]⟩
  · refine ⟨⟨?_, ?_⟩, ?_⟩
    · simp [parse_html, ha, ArticleParseResult.success]
    · simp [parse_html, ha, ArticleParseResult.success]
    · intro hcase
      rcases hcase with hm | hh | hfa
      · cases hmt : doc.metaTitle with
        | none =>
          rw [hmt] at hm
          exact absurd rfl hm
        | some c =>
          rw [hmt] at hm
          simp only [Option.getD_some] at hm
          simp [parse_html, ha, hmt, hm]
      · cases hh1 : doc.h1Text with
        | none => exact absurd hh1 hh
        | some t => simp [parse_html, ha, hh1]
      · exact absurd hfa ha

/-- C5 witness: on a document whose title comes from its h1, two calls
with different uuid draws agree exactly. -/
theorem parse_html_deterministic_modulo_title_witness :
    parse_html docTitled "https://medium.com/p/x" "aaa"
      = parse_html docTitled "https://medium.com/p/x" "bbb" :=
  (parse_html_deterministic_modulo_title docTitled "https://medium.com/p/x" "aaa" "bbb").2
    (Or.inr (Or.inl (by simp [docTitled])))

lemma filterMap_eq_map_on {α β : Type} (l : List α) (F : α → Option β) (q : α → β)
    (h : ∀ a ∈ l, F a = some (q a)) : l.filterMap F = l.map q := by
  induction l with
  | nil => rfl
  | cons a t ih =>
    rw [List.filterMap_cons, List.map_cons, h a (by simp)]
    rw [ih (fun b hb => h b (by simp [hb]))]

lemma find?_completed {ρ : Type} (f : String → ρ) (urls : List String)
    (l : List Nat) (i : Nat) (hi : i < urls.length)
    (hmem : i ∈ l) (hlt : ∀ j ∈ l, j < urls.length) :
    ((l.filterMap (fun j => (urls[j]?).map (fun u => (j, f u)))).find?
      (fun p => p.1 = i)) = some (i, f urls[i]) := by
  induction l with
  | nil => cases hmem
  | cons j rest ih =>
    have hj : j < urls.length := hlt j (by simp)
    rw [List.filterMap_cons, List.getElem?_eq_getElem hj]
    by_cases hij : j = i
    · subst hij
      simp [List.find?_cons]
    · simp only [Option.map_some']
      rw [List.find?_cons_of_neg _ (by simp [hij])]
      refine ih ?_ (fun j' hj' => hlt j' (by simp [hj']))
      rcases List.mem_cons.mp hmem with h | h
      · exact absurd h.symm hij
      · exact h

lemma runConcurrent_perm {ρ : Type} (f : String → ρ) (urls : List String)
    (sched : List Nat) (h : sched.Perm (List.range urls.length)) :
    runConcurrent f urls sched = urls.map f := by
  have hlt : ∀ j ∈ sched, j < urls.length := fun j hj =>
    List.mem_range.mp (h.mem_iff.mp hj)
  have hmem : ∀ i, i < urls.length → i ∈ sched := fun i hi =>
    h.mem_iff.mpr (List.mem_range.mpr hi)
  unfold runConcurrent
  rw [filterMap_eq_map_on (List.range urls.length) _
    (fun i => f (urls.getD i "")) ?_]
  · apply List.ext_getElem
    · simp
    · intro i h1 h2
      have hi : i < urls.length := by simpa using h2
      simp [List.getElem_map, List.getElem_range, List.getD_eq_getElem?_getD,
        List.getElem?_eq_getElem hi]
  · intro i hi
    have hi' := List.mem_range.mp hi
    rw [find?_completed f urls sched i hi' (hmem i hi') hlt]
    simp only [Option.map_some']
    have : urls[i] = urls.getD i "" := by
      simp [List.getD_eq_getElem?_getD, List.getElem?_eq_getElem hi']
    rw [this]

/-- C8: for every input URL list and every completion order of the
concurrent tasks, fetch_all and scrape_markdown_all return one outcome
record per URL, at the position of that URL in the input list — the
i-th result is the i-th URL's outcome regardless of completion order,
and no URL's failure removes or reorders other entries (each position
carries its own ok/err record). -/
theorem results_in_input_order (safeFetch : String → Except String HttpResponse)
    (parseDoc : String → MdDoc) (uuid4hex : String)
    (urls : List String) (sched : List Nat)
    (hperm : sched.Perm (List.range urls.length)) :
    fetch_all safeFetch urls sched = urls.map (fetchOne safeFetch) ∧
    scrape_markdown_all safeFetch parseDoc uuid4hex urls sched
      = urls.map (scrapeOne safeFetch parseDoc uuid4hex) :=
  ⟨runConcurrent_perm _ urls sched hperm, runConcurrent_perm _ urls sched hperm⟩

/-- C8 witness: urls [A, B, C] with completion order C, A, B (schedule
[2, 0, 1]) and A failing still yield results positioned [A, B, C]. -/
theorem results_in_input_order_witness :
    fetch_all safeFetchW [urlA, urlB, urlC] [2, 0, 1]
      = [urlA, urlB, urlC].map (fetchOne safeFetchW) ∧
    scrape_markdown_all safeFetchW parseDocW "u0" [urlA, urlB, urlC] [2, 0, 1]
      = [urlA, urlB, urlC].map (scrapeOne safeFetchW parseDocW "u0") :=
  results_in_input_order safeFetchW parseDocW "u0" [urlA, urlB, urlC] [2, 0, 1]
    (by decide)

lemma snapshotsAux_invariant (ks : List TaskKind) (s : ProgressStats)
    (h1 : s.success + s.failed + s.parse_failed = s.completed)
    (h2 : s.completed + ks.length ≤ s.total) :
    ∀ x ∈ snapshotsAux s ks,
      x.success + x.failed + x.parse_failed = x.completed ∧
      x.completed ≤ x.total ∧ x.total = s.total := by
  induction ks generalizing s with
  | nil => intro x hx; cases hx
  | cons k rest ih =>
    intro x hx
    have hstep1 : (stepStats s k).success + (stepStats s k).failed
        + (stepStats s k).parse_failed = (stepStats s k).completed := by
      cases k <;> simp [stepStats] <;> omega
    have hstep2 : (stepStats s k).completed + rest.length ≤ (stepStats s k).total := by
      cases k <;> simp [stepStats] <;> simp at h2 <;> omega
    have htot : (stepStats s k).total = s.total := by
      cases k <;> rfl
    rcases List.mem_cons.mp hx with hx | hx
    · subst hx
      refine ⟨hstep1, ?_, htot⟩
      rw [htot]
      have : (stepStats s k).completed = s.completed + 1 := by
        cases k <;> rfl
      simp at h2
      omega
    · have := ih (stepStats s k) hstep1 hstep2 x hx
      exact ⟨this.1, this.2.1, this.2.2.trans htot⟩

lemma snapshotsAux_no_parse_failed (ks : List TaskKind) (s : ProgressStats)
    (h0 : s.parse_failed = 0) (hk : ∀ k ∈ ks, k ≠ TaskKind.parseFailed) :
    ∀ x ∈ snapshotsAux s ks, x.parse_failed = 0 := by
  induction ks generalizing s with
  | nil => intro x hx; cases hx
  | cons k rest ih =>
    intro x hx
    have hkk := hk k (by simp)
    have hstep : (stepStats s k).parse_failed = 0 := by
      cases k with
      | success => simpa [stepStats] using h0
      | failed => simpa [stepStats] using h0
      | parseFailed => exact absurd rfl hkk
    rcases List.mem_cons.mp hx with hx | hx
    · subst hx; exact hstep
    · exact ih (stepStats s k) hstep (fun k' hk' => hk k' (by simp [hk'])) x hx

/-- C10: with one completion per URL, every snapshot handed to the
progress callback satisfies success + failed + parse_failed = completed
and completed ≤ total; the first callback reports completed = 0 with all
counters zero; and for the fetch_all variant (no parse-failure outcome)
parse_failed stays 0, so success + failed = completed there. -/
theorem progress_stats_invariant (total : Nat) (ks : List TaskKind)
    (hlen : ks.length = total) :
    (∀ s ∈ progressSnapshots total ks,
      s.success + s.failed + s.parse_failed = s.completed ∧
      s.completed ≤ total ∧ s.total = total) ∧
    (progressSnapshots total ks).head? = some (initStats total) ∧
    ((∀ k ∈ ks, k ≠ TaskKind.parseFailed) →
      ∀ s ∈ progressSnapshots total ks, s.parse_failed = 0) := by
  refine ⟨?_, rfl, ?_⟩
  · intro s hs
    rcases List.mem_cons.mp hs with hs | hs
    · subst hs
      exact ⟨rfl, Nat.zero_le _, rfl⟩
    · have := snapshotsAux_invariant ks (initStats total) rfl
        (by simp [initStats, hlen]) s hs
      have htot : s.total = total := this.2.2
      exact ⟨this.1, htot ▸ this.2.1, htot⟩
  · intro hk s hs
    rcases List.mem_cons.mp hs with hs | hs
    · subst hs; rfl
    · exact snapshotsAux_no_parse_failed ks (initStats total) rfl hk s hs

/-- C10 witness: a 3-task run (success, failed, parseFailed) satisfies
the invariant at every snapshot, starting from the all-zero snapshot. -/
theorem progress_stats_invariant_witness :
    (∀ s ∈ progressSnapshots 3 [TaskKind.success, TaskKind.failed, TaskKind.parseFailed],
      s.success + s.failed + s.parse_failed = s.completed ∧
      s.completed ≤ 3 ∧ s.total = 3) ∧
    (progressSnapshots 3 [TaskKind.success, TaskKind.failed, TaskKind.parseFailed]).head?
      = some (initStats 3) :=
  ⟨(progress_stats_invariant 3 [TaskKind.success, TaskKind.failed, TaskKind.parseFailed]
      (by decide)).1,
   (progress_stats_invariant 3 [TaskKind.success, TaskKind.failed, TaskKind.parseFailed]
      (by decide)).2.1⟩
